import Mathlib

/-!
Shallow Lean 4 embedding of the deterministic backtesting / market-classification
core of the `odin-project` repository (Python, FastAPI backend).

Sources embedded here:
  * `backend/app/core/market_analysis.py`  — `MarketAnalyzer.analyze_market_regime`,
    `MarketAnalyzer.scan_universe`, `MarketAnalyzer._calculate_weighted_score`;
  * `backend/app/core/strategy_base.py`    — `BaseStrategy.calculate_pnl`,
    `BollingerBandBreakoutStrategy` (entry signal, stop plan, entry price, size),
    the RSI pipeline shared by `MomentumStrategy` / `MeanReversionStrategy`;
  * `backend/app/api/backtest.py`          — the candle-by-candle simulation loop of
    `run_bollinger_breakout_backtest`, the request validation of `create_backtest`,
    and the `profit_factor` statistic.

Modelling conventions:
  * Python floats are modelled by `ℚ` (exact-real semantics) except where IEEE
    special values are the point of a claim; for the pandas RSI pipeline a small
    float type `Fl` with `nan` / infinities is used, since 0/0 → NaN there.
  * Timestamps (pandas DatetimeIndex values) are modelled by `ℕ`; the engine only
    copies and compares them.
  * Korean close-reason strings are kept verbatim from the source:
    "손절" = stop loss, "최대 익절 (200%)" = take profit,
    "트레일링 스탑" = trailing stop, "백테스트 종료" = end of data.
-/

/-- One OHLCV candle (`pandas` row of the backtest dataframe): timestamp (index),
open, high, low, close, volume. -/
structure Candle where
  ts : Nat
  op : ℚ
  high : ℚ
  low : ℚ
  close : ℚ
  volume : ℚ
deriving DecidableEq, Repr

instance : Inhabited Candle := ⟨⟨0, 0, 0, 0, 0, 0⟩⟩

/-- Mean of the last `w` closes: value of `series.rolling(window=w).mean().iloc[-1]`
for a series of length ≥ w (pandas rolling mean at the last index is the mean of the
last `w` entries). -/
def lastSMA (closes : List ℚ) (w : Nat) : ℚ :=
  ((closes.drop (closes.length - w)).sum) / (w : ℚ)

/-- Market regime labels returned by `MarketAnalyzer.analyze_market_regime`. -/
inductive Regime where
  | UPTREND
  | DOWNTREND
  | SIDEWAYS
deriving DecidableEq, Repr

/-- `MarketAnalyzer.analyze_market_regime` (market_analysis.py:28-58): raises
`ValueError` for fewer than 120 candles; otherwise compares the last close against
the last SMA20/SMA60/SMA120 values with the two strict chains, defaulting to
SIDEWAYS.  Errors are modelled with `Except`. -/
def analyze_market_regime (closes : List ℚ) : Except String Regime :=
  if closes.length < 120 then .error "최소 120개 캔들이 필요합니다."
  else
    let current_price := closes.getLastD 0
    let sma20 := lastSMA closes 20
    let sma60 := lastSMA closes 60
    let sma120 := lastSMA closes 120
    if current_price > sma20 ∧ sma20 > sma60 ∧ sma60 > sma120 then .ok .UPTREND
    else if current_price < sma20 ∧ sma20 < sma60 ∧ sma60 < sma120 then .ok .DOWNTREND
    else .ok .SIDEWAYS

/-- A backtest request (`BacktestRequest` pydantic model, trade_models.py:84-89).
Dates are modelled as naturals (only their order is used by the code). -/
structure BacktestRequest where
  strategy_id : String
  start_date : Nat
  end_date : Nat
  initial_capital : ℚ
  timeframe : String
deriving DecidableEq, Repr

/-- The strategy registry keys of `StrategyFactory._strategies`
(strategy_base.py:388-392). -/
def strategy_registry_ids : List String :=
  ["momentum_v1", "mean_reversion_v1", "bollinger_breakout_v1"]

/-- The validation performed by `create_backtest` (backtest.py:386-395) before any
job state is created: `StrategyFactory.get_strategy` raises `ValueError` for an
unknown id (strategy_base.py:405-406, surfaced as HTTP 400), then
`start_date >= end_date` is rejected.  No other field is validated. -/
def create_backtest_validation (r : BacktestRequest) : Except String Unit :=
  if r.strategy_id ∉ strategy_registry_ids then
    .error "유효하지 않은 전략"
  else if r.start_date ≥ r.end_date then
    .error "시작일은 종료일보다 이전이어야 합니다."
  else
    .ok ()

/-- Sample standard deviation of the last `w` closes: value of
`series.rolling(window=w).std().iloc[-1]` for length ≥ w (pandas uses `ddof=1`).
The square root of the underlying platform is abstracted as the parameter
`sqrtQ`; no claim in this development depends on its values. -/
def lastStd (sqrtQ : ℚ → ℚ) (closes : List ℚ) (w : Nat) : ℚ :=
  let xs := closes.drop (closes.length - w)
  let m := xs.sum / (w : ℚ)
  sqrtQ (((xs.map (fun x => (x - m) ^ 2)).sum) / ((w : ℚ) - 1))

/-- The stop/target plan returned by a strategy's `set_trailing_stop`
(strategy_base.py: dict with keys stop_loss / take_profit / trailing_stop /
max_profit_target; the first three exist on every strategy, the last only on the
Bollinger strategy — the engine reads stop_loss and max_profit_target). -/
structure StopInfo where
  stop_loss : ℚ
  take_profit : ℚ
  trailing_stop : ℚ
  max_profit_target : ℚ
deriving DecidableEq, Repr

/-- The strategy interface consumed by `run_bollinger_breakout_backtest`
(dynamic dispatch on the `strategy` argument): `check_entry_signal`,
`get_entry_price`, `get_position_size_ratio` (field `position_size_fraction`
here), `set_trailing_stop`. -/
structure Strategy where
  check_entry_signal : List Candle → Bool
  get_entry_price : List Candle → ℚ
  position_size_fraction : ℚ
  set_trailing_stop : ℚ → StopInfo

namespace BollingerBandBreakoutStrategy

/-- `BollingerBandBreakoutStrategy.check_entry_signal` (strategy_base.py:290-335):
returns False for fewer than 80 candles, otherwise requires
open < lower 20-band, high > upper 20-band + upper 80-band, close > open,
with bands = SMA ± 2·std over the respective window at the last index. -/
def check_entry_signal (sqrtQ : ℚ → ℚ) (ohlcv_df : List Candle) : Bool :=
  if ohlcv_df.length < 80 then false
  else
    let closes := ohlcv_df.map (·.close)
    let bb20_upper := lastSMA closes 20 + lastStd sqrtQ closes 20 * 2
    let bb20_lower := lastSMA closes 20 - lastStd sqrtQ closes 20 * 2
    let bb80_upper := lastSMA closes 80 + lastStd sqrtQ closes 80 * 2
    let current_candle := ohlcv_df.getLastD default
    let condition1 := current_candle.op < bb20_lower
    let condition2 := current_candle.high > bb20_upper + bb80_upper
    let condition3 := current_candle.close > current_candle.op
    condition1 ∧ condition2 ∧ condition3

/-- `BollingerBandBreakoutStrategy.set_trailing_stop` (strategy_base.py:346-356):
3% stop loss, 200% take profit, 1.5% trailing reference, 200% max-profit target. -/
def set_trailing_stop (entry_price : ℚ) : StopInfo :=
  { stop_loss := entry_price * (97 / 100)
    take_profit := entry_price * 3
    trailing_stop := entry_price * (985 / 1000)
    max_profit_target := entry_price * 3 }

/-- `BollingerBandBreakoutStrategy.get_entry_price` (strategy_base.py:358-373):
0.5% below the last close (simulated limit fill). -/
def get_entry_price (ohlcv_df : List Candle) : ℚ :=
  (ohlcv_df.getLastD default).close * (995 / 1000)

/-- The strategy record for `bollinger_breakout_v1`, parametric in the platform
square root used inside the Bollinger bands. -/
def strategy (sqrtQ : ℚ → ℚ) : Strategy :=
  { check_entry_signal := check_entry_signal sqrtQ
    get_entry_price := get_entry_price
    position_size_fraction := 3 / 10
    set_trailing_stop := set_trailing_stop }

end BollingerBandBreakoutStrategy

/-- `BaseStrategy.calculate_pnl` (strategy_base.py:90-107): direction-aware pnl,
`(current − entry) × size` for direction "long", `(entry − current) × size`
otherwise. -/
def calculate_pnl (entry_price current_price position_size : ℚ)
    (direction : String) : ℚ :=
  if direction = "long" then (current_price - entry_price) * position_size
  else (entry_price - current_price) * position_size

/-- The open position held by the simulation loop (the `position` dict of
backtest.py:169-175): entry timestamp, entry price, size (a capital notional),
direction (always "LONG"), running highest price since entry. -/
structure Position where
  entry_date : Nat
  entry_price : ℚ
  size : ℚ
  direction : String
  highest_price : ℚ
deriving DecidableEq, Repr

/-- One trade-ledger record (the `trade` dict of backtest.py:178-189, extended in
place on close at backtest.py:233-238 / 260-265).  Close fields are `none` while
the trade is open. -/
structure Trade where
  date : Nat
  price : ℚ
  size : ℚ
  direction : String
  pnl : ℚ
  stop_loss : ℚ
  max_profit_target : ℚ
  close_date : Option Nat
  close_price : Option ℚ
  close_reason : Option String
  highest_price_reached : Option ℚ
  max_profit_percentage : Option ℚ
deriving DecidableEq, Repr

/-- The mutable state threaded through the backtest loop: current capital, the
optional open position, the trade ledger, the equity curve (timestamp, equity). -/
structure EngineState where
  capital : ℚ
  position : Option Position
  trades : List Trade
  equity_curve : List (Nat × ℚ)
deriving DecidableEq, Repr

/-- `trades[-1] = f(trades[-1])` — the Python in-place update of the last ledger
entry; the identity on an empty ledger (the code only reaches it while a position
is open, hence with a nonempty ledger). -/
def updateLast {α : Type} (ts : List α) (f : α → α) : List α :=
  match ts.getLast? with
  | none => ts
  | some t => ts.dropLast ++ [f t]

/-- The exit evaluation of one OPEN candle (backtest.py:201-228): recompute the
stop plan, fold the close into the running high, compute the trailing threshold
`highest × 0.985`, then test in order: stop loss, max-profit target, armed
trailing stop.  Returns the updated high and the matched reason (if any). -/
def evalExit (strat : Strategy) (pos : Position) (candle : Candle) :
    ℚ × Option String :=
  let current_price := candle.close
  let stop_info := strat.set_trailing_stop pos.entry_price
  let highest := max pos.highest_price current_price
  let trailing_stop := highest * (985 / 1000)
  let reason : Option String :=
    if current_price ≤ stop_info.stop_loss then some "손절"
    else if current_price ≥ stop_info.max_profit_target then some "최대 익절 (200%)"
    else if current_price ≤ trailing_stop ∧ highest > pos.entry_price * (102 / 100) then
      some "트레일링 스탑"
    else none
  (highest, reason)

/-- FLAT→OPEN (backtest.py:162-190): open a LONG position at the strategy's entry
price, size = capital × position-size ratio, record an open trade (with the
inline `entry_price*0.97` / `entry_price*3.00` annotations of the source). -/
def openPosition (strat : Strategy) (current_data : List Candle) (candle : Candle)
    (st : EngineState) : EngineState :=
  let entry_price := strat.get_entry_price current_data
  let position_size := st.capital * strat.position_size_fraction
  { st with
    position := some
      { entry_date := candle.ts, entry_price := entry_price, size := position_size
        direction := "LONG", highest_price := entry_price }
    trades := st.trades ++
      [{ date := candle.ts, price := entry_price, size := position_size
         direction := "LONG", pnl := 0
         stop_loss := entry_price * (97 / 100)
         max_profit_target := entry_price * 3
         close_date := none, close_price := none, close_reason := none
         highest_price_reached := none, max_profit_percentage := none }] }

/-- OPEN→FLAT (backtest.py:231-244): finalize the last ledger entry with the
realized pnl, close timestamp/price/reason and high-water annotations, add the
pnl to capital, drop the position. -/
def closePosition (pos : Position) (candle : Candle) (pnl highest : ℚ)
    (reason : String) (st : EngineState) : EngineState :=
  { st with
    trades := updateLast st.trades (fun t =>
      { t with
        pnl := pnl, close_date := some candle.ts, close_price := some candle.close
        close_reason := some reason
        highest_price_reached := some highest
        max_profit_percentage :=
          some ((highest - pos.entry_price) / pos.entry_price * 100) })
    capital := st.capital + pnl
    position := none }

/-- One iteration of the backtest loop (backtest.py:156-250) for the candle at the
end of `current_data`: if FLAT, consult the entry signal; if OPEN, evaluate the
exit chain; in both cases append one equity point with the post-step capital. -/
def processCandle (strat : Strategy) (current_data : List Candle) (candle : Candle)
    (st : EngineState) : EngineState :=
  let st1 :=
    match st.position with
    | none =>
      if strat.check_entry_signal current_data then
        openPosition strat current_data candle st
      else st
    | some pos =>
      let current_price := candle.close
      let pnl := (current_price - pos.entry_price) * pos.size / pos.entry_price
      let hr := evalExit strat pos candle
      match hr.2 with
      | some r => closePosition pos candle pnl hr.1 r st
      | none => { st with position := some { pos with highest_price := hr.1 } }
  { st1 with equity_curve := st1.equity_curve ++ [(candle.ts, st1.capital)] }

/-- The loop `for i in range(80, len(ohlcv_data))` (backtest.py:156), phrased
structurally: `processed` is the prefix already consumed, `rest` the candles still
to process; iteration `i` sees `current_data = ohlcv_data.iloc[:i+1]`. -/
def runAux (strat : Strategy) : List Candle → List Candle → EngineState → EngineState
  | _, [], st => st
  | processed, c :: cs, st =>
    runAux strat (processed ++ [c]) cs (processCandle strat (processed ++ [c]) c st)

/-- The forced end-of-data close (backtest.py:253-268): if a position survives the
loop, close it at the final candle's close with reason "백테스트 종료" and rewrite
the final equity point with the updated capital. -/
def finalClose (data : List Candle) (st : EngineState) : EngineState :=
  match st.position with
  | none => st
  | some pos =>
    let last_candle := data.getLastD default
    let current_price := last_candle.close
    let pnl := (current_price - pos.entry_price) * pos.size / pos.entry_price
    { st with
      trades := updateLast st.trades (fun t =>
        { t with
          pnl := pnl, close_date := some last_candle.ts
          close_price := some current_price
          close_reason := some "백테스트 종료"
          highest_price_reached := some pos.highest_price
          max_profit_percentage :=
            some ((pos.highest_price - pos.entry_price) / pos.entry_price * 100) })
      capital := st.capital + pnl
      equity_curve := updateLast st.equity_curve (fun p => (p.1, st.capital + pnl))
      position := none }

/-- `run_bollinger_breakout_backtest` (backtest.py:132-268), the simulation part:
fold the candles from index 80 on, then force-close.  Parametric in the strategy
(the source dispatches on the `strategy` argument). -/
def run_bollinger_breakout_backtest (strat : Strategy) (initial_capital : ℚ)
    (data : List Candle) : EngineState :=
  finalClose data
    (runAux strat (data.take 80) (data.drop 80)
      { capital := initial_capital, position := none, trades := [], equity_curve := [] })

/-- A float value of the pandas RSI pipeline: a rational, an infinity, or NaN.
Exact where the source is exact; the IEEE special values capture `x/0`. -/
inductive Fl where
  | num (q : ℚ)
  | inf
  | ninf
  | nan
deriving DecidableEq, Repr

namespace Fl

/-- IEEE addition on the fragment used by the RSI pipeline (no signed zeros). -/
def add : Fl → Fl → Fl
  | num a, num b => num (a + b)
  | num _, inf => inf
  | num _, ninf => ninf
  | inf, num _ => inf
  | ninf, num _ => ninf
  | inf, inf => inf
  | ninf, ninf => ninf
  | inf, ninf => nan
  | ninf, inf => nan
  | _, nan => nan
  | nan, _ => nan

/-- IEEE subtraction on the fragment used by the RSI pipeline. -/
def sub : Fl → Fl → Fl
  | num a, num b => num (a - b)
  | num _, inf => ninf
  | num _, ninf => inf
  | inf, num _ => inf
  | ninf, num _ => ninf
  | inf, ninf => inf
  | ninf, inf => ninf
  | inf, inf => nan
  | ninf, ninf => nan
  | _, nan => nan
  | nan, _ => nan

/-- IEEE division on the fragment used by the RSI pipeline: a nonzero rational
over zero gives a signed infinity, `0/0` gives NaN, finite over infinite gives 0. -/
def div : Fl → Fl → Fl
  | num a, num b =>
    if b ≠ 0 then num (a / b)
    else if a > 0 then inf
    else if a < 0 then ninf
    else nan
  | num _, inf => num 0
  | num _, ninf => num 0
  | inf, num b => if b ≥ 0 then inf else ninf
  | ninf, num b => if b ≥ 0 then ninf else inf
  | inf, inf => nan
  | inf, ninf => nan
  | ninf, inf => nan
  | ninf, ninf => nan
  | _, nan => nan
  | nan, _ => nan

/-- IEEE `<`: every comparison against NaN is false. -/
def lt : Fl → Fl → Bool
  | num a, num b => a < b
  | num _, inf => true
  | ninf, num _ => true
  | ninf, inf => true
  | _, _ => false

end Fl

/-- `series.diff()` of the close column: index 0 is NaN, index i is
`close[i] − close[i−1]`. -/
def diffSeries (closes : List ℚ) : List Fl :=
  match closes with
  | [] => []
  | _ :: _ =>
    Fl.nan :: (closes.zip (closes.drop 1)).map (fun p => Fl.num (p.2 - p.1))

/-- `delta.where(delta > 0, 0)` — the gain series: NaN and non-positive entries
become 0 (a NaN comparison is false, so the NaN head is replaced by 0). -/
def gainSeries (delta : List Fl) : List ℚ :=
  delta.map (fun d => match d with | .num q => if q > 0 then q else 0 | _ => 0)

/-- `(-delta.where(delta < 0, 0))` — the loss series, sign flipped. -/
def lossSeries (delta : List Fl) : List ℚ :=
  delta.map (fun d => match d with | .num q => if q < 0 then -q else 0 | _ => 0)

/-- `series.rolling(window=w).mean().iloc[-1]` over an all-numeric series: NaN
while the window is not yet full, else the mean of the last `w` entries. -/
def rollMeanLast (xs : List ℚ) (w : Nat) : Fl :=
  if xs.length < w then .nan
  else .num (((xs.drop (xs.length - w)).sum) / (w : ℚ))

/-- The average gain of the RSI pipeline at the last index
(strategy_base.py:146-148 and 215-217). -/
def avgGainLast (closes : List ℚ) (period : Nat) : Fl :=
  rollMeanLast (gainSeries (diffSeries closes)) period

/-- The average loss of the RSI pipeline at the last index. -/
def avgLossLast (closes : List ℚ) (period : Nat) : Fl :=
  rollMeanLast (lossSeries (diffSeries closes)) period

/-- The RSI value at the last index (strategy_base.py:149-150 / 218-219):
`rs = gain/loss`, `rsi = 100 − 100/(1 + rs)`, under pandas float semantics. -/
def rsiLast (closes : List ℚ) (period : Nat) : Fl :=
  let rs := Fl.div (avgGainLast closes period) (avgLossLast closes period)
  Fl.sub (.num 100) (Fl.div (.num 100) (Fl.add (.num 1) rs))

/-- Python `round` to an integer: round half to even (banker's rounding), under
exact-rational semantics. -/
def pyRoundInt (q : ℚ) : ℤ :=
  let f := ⌊q⌋
  let frac := q - (f : ℚ)
  if frac < 1 / 2 then f
  else if frac > 1 / 2 then f + 1
  else if f % 2 = 0 then f else f + 1

/-- Python `round(x, 2)` under exact-rational semantics. -/
def pyRound2 (q : ℚ) : ℚ := ((pyRoundInt (q * 100)) : ℚ) / 100

/-- The `profit_factor` statistic (backtest.py:313): the sum of winning pnls over
the absolute sum of losing pnls, rounded to 2 digits, and 0 when the sum of
losing pnls is 0. -/
def profit_factor (pnls : List ℚ) : ℚ :=
  let losing_sum := (pnls.filter (fun p => p < 0)).sum
  let winning_sum := (pnls.filter (fun p => p > 0)).sum
  if losing_sum ≠ 0 then pyRound2 (winning_sum / |losing_sum|) else 0

/-- One instrument of a ticker snapshot (`get_all_tickers`,
market_analysis.py:185-193): symbol, percent change, quote volume, last price. -/
structure Ticker where
  symbol : String
  change_pct : ℚ
  quote_volume : ℚ
  last : ℚ
deriving DecidableEq, Repr

/-- One ranked-universe entry: `{"symbol": ..., "direction": "long"|"short"}`. -/
structure RankedSymbol where
  symbol : String
  direction : String
deriving DecidableEq, Repr

/-- A stable descending sort by a rational key (Python `sorted(..., reverse=True)`
is a stable sort; `List.insertionSort` with a total preorder is stable). -/
def sortByKeyDesc {α : Type} (key : α → ℚ) (l : List α) : List α :=
  l.insertionSort (fun a b => key a ≥ key b)

/-- A stable ascending sort by a rational key (Python `sorted(...)`). -/
def sortByKeyAsc {α : Type} (key : α → ℚ) (l : List α) : List α :=
  l.insertionSort (fun a b => key a ≤ key b)

/-- `lst[-n:]` — the last `n` elements (the whole list when shorter). -/
def lastN {α : Type} (n : Nat) (l : List α) : List α := l.drop (l.length - n)

/-- One entry of the `scores` dict of `_calculate_weighted_score`:
symbol key, the ticker stored at first insertion, the accumulated score. -/
structure ScoreEntry where
  symbol : String
  data : Ticker
  score : ℚ
deriving DecidableEq, Repr

/-- `scores[symbol]` upsert (market_analysis.py:139-150): create the entry with
score 0 on first sight (dict preserves insertion order), then add `pts`. -/
def addScore (scores : List ScoreEntry) (item : Ticker) (pts : ℚ) :
    List ScoreEntry :=
  if scores.any (fun e => e.symbol = item.symbol) then
    scores.map (fun e =>
      if e.symbol = item.symbol then { e with score := e.score + pts } else e)
  else scores ++ [{ symbol := item.symbol, data := item, score := pts }]

/-- One enumerate pass of `_calculate_weighted_score`: item at rank `i`
contributes `(10 − i) × weight`. -/
def scorePass (scores : List ScoreEntry) (lst : List Ticker) (weight : ℚ) :
    List ScoreEntry :=
  (lst.enum).foldl
    (fun sc p => addScore sc p.2 ((10 - (p.1 : ℚ)) * weight)) scores

/-- `MarketAnalyzer._calculate_weighted_score` (market_analysis.py:121-154):
score the change list, then the volume list, sort the entries by score descending
(stably) and return the stored tickers. -/
def calculate_weighted_score (change_list volume_list : List Ticker)
    (change_weight volume_weight : ℚ) : List Ticker :=
  let scores := scorePass (scorePass [] change_list change_weight)
    volume_list volume_weight
  (sortByKeyDesc (fun e => e.score) scores).map (fun e => e.data)

/-- `MarketAnalyzer.scan_universe` (market_analysis.py:60-119): filter to /USDT
pairs, build the regime-dependent candidate windows (clipped by list slicing),
score them, and emit directions. -/
def scan_universe (market_regime : Regime) (all_tickers_data : List Ticker) :
    List RankedSymbol :=
  let usdt_pairs := all_tickers_data.filter (fun t => t.symbol.endsWith "/USDT")
  match market_regime with
  | .UPTREND =>
    let top_change := (sortByKeyDesc (fun t => t.change_pct) usdt_pairs).take 10
    let top_volume := (sortByKeyDesc (fun t => t.quote_volume) usdt_pairs).take 10
    let selected := calculate_weighted_score top_change top_volume (6/10) (4/10)
    (selected.take 5).map (fun item => ⟨item.symbol, "long"⟩)
  | .DOWNTREND =>
    let top_change := (sortByKeyAsc (fun t => t.change_pct) usdt_pairs).take 10
    let top_volume := (sortByKeyDesc (fun t => t.quote_volume) usdt_pairs).take 10
    let selected := calculate_weighted_score top_change top_volume (6/10) (4/10)
    (selected.take 5).map (fun item => ⟨item.symbol, "short"⟩)
  | .SIDEWAYS =>
    let sorted_by_change := sortByKeyDesc (fun t => t.change_pct) usdt_pairs
    let top_gainers := sorted_by_change.take 10
    let top_losers := lastN 10 sorted_by_change
    let top_volume := (sortByKeyDesc (fun t => t.quote_volume) usdt_pairs).take 10
    let selected_long :=
      (calculate_weighted_score top_gainers top_volume (6/10) (4/10)).take 5
    let selected_short :=
      (calculate_weighted_score top_losers top_volume (6/10) (4/10)).take 5
    (selected_long.map (fun item => (⟨item.symbol, "long"⟩ : RankedSymbol))) ++
      (selected_short.map (fun item => (⟨item.symbol, "short"⟩ : RankedSymbol)))

/-- The per-trade closing invariant maintained by the simulation: once a close
reason is recorded, the trade is a LONG whose pnl is
`(closePrice − entryPrice) × size / entryPrice`, and every non-forced close
happened on a candle strictly after the entry candle. -/
def ClosedTradeOK (t : Trade) : Prop :=
  ∀ r, t.close_reason = some r →
    t.direction = "LONG" ∧
    (∃ cp, t.close_price = some cp ∧ t.pnl = (cp - t.price) * t.size / t.price) ∧
    (r ≠ "백테스트 종료" → ∃ d, t.close_date = some d ∧ t.date < d)

/-- The open-position invariant of the loop: an open position was entered
strictly before every unprocessed candle, and the last ledger entry is its
still-open trade, carrying the same entry data. -/
def OpenPosOK (st : EngineState) (rest : List Candle) : Prop :=
  ∀ pos, st.position = some pos →
    (∀ c ∈ rest, pos.entry_date < c.ts) ∧
    ∃ t, st.trades.getLast? = some t ∧ t.close_reason = none ∧
      t.date = pos.entry_date ∧ t.price = pos.entry_price ∧
      t.size = pos.size ∧ t.direction = "LONG"

/-- The loop invariant of `run_bollinger_breakout_backtest`. -/
def EngineInv (st : EngineState) (rest : List Candle) : Prop :=
  (∀ t ∈ st.trades, ClosedTradeOK t) ∧ OpenPosOK st rest

/-- A flat test candle with all four prices equal. -/
def mkCandle (i : Nat) (c : ℚ) : Candle := ⟨i, c, c, c, c, 1⟩

/-- A demonstration strategy whose entry signal always fires (the engine is
parametric in the strategy; this instantiation exercises the generic theorems on
concrete data). -/
def alwaysEnterStrategy : Strategy :=
  { check_entry_signal := fun _ => true
    get_entry_price := fun df => (df.getLastD default).close
    position_size_fraction := 3 / 10
    set_trailing_stop := BollingerBandBreakoutStrategy.set_trailing_stop }

/-- 82 flat candles at 100 followed by a crash to 50: the loop enters at index 80
and stops out at index 81. -/
def demoData : List Candle :=
  ((List.range 80).map (fun i => mkCandle i 100)) ++ [mkCandle 80 100, mkCandle 81 50]

/-- C3: for every series of at least 120 candles the regime classifier returns
exactly one of UPTREND/DOWNTREND/SIDEWAYS; UPTREND iff the strict chain
close > SMA20 > SMA60 > SMA120 holds, DOWNTREND iff the strict reversed chain
holds, and SIDEWAYS in every other ordering, ties included. -/
theorem C3_regime_classification (closes : List ℚ) (h : 120 ≤ closes.length) :
    (∃ r, analyze_market_regime closes = .ok r) ∧
    (analyze_market_regime closes = .ok .UPTREND ↔
      closes.getLastD 0 > lastSMA closes 20 ∧ lastSMA closes 20 > lastSMA closes 60 ∧
        lastSMA closes 60 > lastSMA closes 120) ∧
    (analyze_market_regime closes = .ok .DOWNTREND ↔
      closes.getLastD 0 < lastSMA closes 20 ∧ lastSMA closes 20 < lastSMA closes 60 ∧
        lastSMA closes 60 < lastSMA closes 120) ∧
    (analyze_market_regime closes = .ok .SIDEWAYS ↔
      ¬(closes.getLastD 0 > lastSMA closes 20 ∧ lastSMA closes 20 > lastSMA closes 60 ∧
          lastSMA closes 60 > lastSMA closes 120) ∧
      ¬(closes.getLastD 0 < lastSMA closes 20 ∧ lastSMA closes 20 < lastSMA closes 60 ∧
          lastSMA closes 60 < lastSMA closes 120)) := by
  have hn : ¬ closes.length < 120 := by omega
  unfold analyze_market_regime
  rw [if_neg hn]
  dsimp only
  split_ifs with h1 h2
  · have h2 : ¬(closes.getLastD 0 < lastSMA closes 20 ∧
        lastSMA closes 20 < lastSMA closes 60 ∧ lastSMA closes 60 < lastSMA closes 120) := by
      intro h2
      exact absurd h1.1 (not_lt.mpr (le_of_lt h2.1))
    exact ⟨⟨_, rfl⟩, iff_of_true rfl h1, iff_of_false (by simp) h2,
      iff_of_false (by simp) (fun hc => hc.1 h1)⟩
  · exact ⟨⟨_, rfl⟩, iff_of_false (by simp) h1, iff_of_true rfl h2,
      iff_of_false (by simp) (fun hc => hc.2 h2)⟩
  · exact ⟨⟨_, rfl⟩, iff_of_false (by simp) h1, iff_of_false (by simp) h2,
      iff_of_true rfl ⟨h1, h2⟩⟩

theorem C3_regime_classification_witness :
    120 ≤ (List.replicate 120 (1 : ℚ)).length ∧
      analyze_market_regime (List.replicate 120 (1 : ℚ)) = .ok .SIDEWAYS := by
  have hlen : 120 ≤ (List.replicate 120 (1 : ℚ)).length := by simp
  have h := C3_regime_classification (List.replicate 120 (1 : ℚ)) hlen
  have h20 : lastSMA (List.replicate 120 (1 : ℚ)) 20 = 1 := by norm_num [lastSMA]
  have h60 : lastSMA (List.replicate 120 (1 : ℚ)) 60 = 1 := by norm_num [lastSMA]
  have h120 : lastSMA (List.replicate 120 (1 : ℚ)) 120 = 1 := by norm_num [lastSMA]
  have hlast : (List.replicate 120 (1 : ℚ)).getLastD 0 = 1 := by norm_num [List.replicate]
  refine ⟨hlen, h.2.2.2.mpr ?_⟩
  rw [h20, h60, h120, hlast]
  simp

/-- C4 counterexample: on a 1-candle series the Bollinger breakout entry check
returns the value `false` — it does not fail with an InsufficientDataError-style
error as the claim states (contrast `analyze_market_regime`, which raises). -/
theorem C4_counterexample :
    BollingerBandBreakoutStrategy.check_entry_signal (fun _ => 0) [mkCandle 0 1] = false := by
  simp [BollingerBandBreakoutStrategy.check_entry_signal]

/-- C4 as amended: for a series shorter than its minimum lookback, the regime
classifier (120) fails with its ValueError message, while the Bollinger breakout
entry signal (80) deterministically returns `false` (no signal) instead of
raising. -/
theorem C4_amended (closes : List ℚ) (df : List Candle) (sqrtQ : ℚ → ℚ)
    (h1 : closes.length < 120) (h2 : df.length < 80) :
    analyze_market_regime closes = .error "최소 120개 캔들이 필요합니다." ∧
      BollingerBandBreakoutStrategy.check_entry_signal sqrtQ df = false := by
  constructor
  · unfold analyze_market_regime
    rw [if_pos h1]
  · unfold BollingerBandBreakoutStrategy.check_entry_signal
    rw [if_pos h2]

/-- C4 witness: the amended claim evaluated on empty series. -/
theorem C4_amended_witness :
    analyze_market_regime [] = .error "최소 120개 캔들이 필요합니다." ∧
      BollingerBandBreakoutStrategy.check_entry_signal (fun _ => 0) [] = false :=
  C4_amended [] [] (fun _ => 0) (by simp) (by simp)

/-- C5 counterexample: a request with non-positive initial capital (−100), a
known strategy id and a valid date order passes validation — the claim that
non-positive capital is rejected is false on the code. -/
theorem C5_counterexample :
    create_backtest_validation
      { strategy_id := "bollinger_breakout_v1", start_date := 0, end_date := 1,
        initial_capital := -100, timeframe := "1h" } = .ok () := by
  simp [create_backtest_validation, strategy_registry_ids]

/-- C5 as amended: a backtest request is accepted exactly when the strategy id
is registered and startDate < endDate; unknown ids and startDate ≥ endDate are
rejected before any job state is created, but initialCapital is not validated. -/
theorem C5_amended (r : BacktestRequest) :
    create_backtest_validation r = .ok () ↔
      r.strategy_id ∈ strategy_registry_ids ∧ r.start_date < r.end_date := by
  unfold create_backtest_validation
  by_cases h1 : r.strategy_id ∈ strategy_registry_ids
  · by_cases h2 : r.start_date ≥ r.end_date
    · rw [if_neg (not_not_intro h1), if_pos h2]
      exact iff_of_false (by simp) (fun hc => absurd hc.2 (by omega))
    · rw [if_neg (not_not_intro h1), if_neg h2]
      exact iff_of_true rfl ⟨h1, by omega⟩
  · rw [if_pos h1]
    exact iff_of_false (by simp) (fun hc => h1 hc.1)

/-- C6 counterexample: on a constant 50-candle series both the average gain and
the average loss are 0, so `rs = 0/0` is NaN and the computed RSI value is NaN —
not 100 as the claim states for the zero-loss case. -/
theorem C6_counterexample :
    rsiLast (List.replicate 50 100) 14 = Fl.nan := by
  simp [rsiLast, avgGainLast, avgLossLast, rollMeanLast, gainSeries, lossSeries,
    diffSeries, Fl.div, Fl.add, Fl.sub]

/-- C6 as amended: when the rolling average loss is 0 at the evaluated index,
the RSI is exactly 100 provided the average gain is positive; when the average
gain is also 0, `rs = 0/0` yields NaN and the RSI value is NaN. -/
theorem C6_amended (closes : List ℚ) (period : Nat) (g : ℚ)
    (hl : avgLossLast closes period = .num 0) (hg : avgGainLast closes period = .num g) :
    (0 < g → rsiLast closes period = .num 100) ∧
      (g = 0 → rsiLast closes period = .nan) := by
  constructor
  · intro hgpos
    unfold rsiLast
    rw [hl, hg]
    simp [Fl.div, Fl.add, Fl.sub, hgpos]
  · intro hg0
    subst hg0
    unfold rsiLast
    rw [hl, hg]
    simp [Fl.div, Fl.add, Fl.sub]

/-- C6 witness: a flat series with one final up-move has zero average loss and
positive average gain, and its RSI evaluates to exactly 100. -/
theorem C6_amended_witness :
    rsiLast [100, 100, 100, 100, 100, 100, 100, 100, 100, 100, 100, 100, 100, 100, 100, 101] 14
      = Fl.num 100 := by
  have hl : avgLossLast
      [100, 100, 100, 100, 100, 100, 100, 100, 100, 100, 100, 100, 100, 100, 100, 101] 14
      = Fl.num 0 := by
    norm_num [avgLossLast, rollMeanLast, lossSeries, diffSeries]
  have hg : avgGainLast
      [100, 100, 100, 100, 100, 100, 100, 100, 100, 100, 100, 100, 100, 100, 100, 101] 14
      = Fl.num (1 / 14) := by
    norm_num [avgGainLast, rollMeanLast, gainSeries, diffSeries]
  exact (C6_amended _ 14 (1 / 14) hl hg).1 (by norm_num)

/-- C7 counterexample: for a run with winning pnl sum 1 and losing pnl sum −3
the code stores `round(1/3, 2) = 0.33`, which is not the exact ratio 1/3 the
claim states. -/
theorem C7_counterexample :
    profit_factor [1, -3] = 33 / 100 ∧ profit_factor [1, -3] ≠ 1 / 3 := by
  constructor <;> norm_num [profit_factor, pyRound2, pyRoundInt]

/-- C7 as amended: the sum of the losing pnls is 0 exactly when there is no
losing trade, in which case profit_factor is exactly 0 (not infinity, not
undefined); otherwise profit_factor is the sum of winning pnls divided by the
absolute sum of losing pnls, rounded to two decimal places. -/
theorem C7_amended (pnls : List ℚ) :
    ((pnls.filter (fun p => p < 0)).sum = 0 ↔ pnls.filter (fun p => p < 0) = []) ∧
    ((pnls.filter (fun p => p < 0)).sum = 0 → profit_factor pnls = 0) ∧
    ((pnls.filter (fun p => p < 0)).sum ≠ 0 →
      profit_factor pnls =
        pyRound2 ((pnls.filter (fun p => p > 0)).sum / |(pnls.filter (fun p => p < 0)).sum|)) := by
  have hall : ∀ x ∈ pnls.filter (fun p => p < 0), x < 0 := by
    intro x hx
    simpa using (List.of_mem_filter hx)
  have hnonpos : ∀ (l : List ℚ), (∀ x ∈ l, x < 0) → l.sum ≤ 0 := by
    intro l
    induction l with
    | nil => simp
    | cons a t ih =>
      intro hl
      have ha := hl a (by simp)
      have ht := ih (fun x hx => hl x (by simp [hx]))
      simp only [List.sum_cons]
      linarith
  refine ⟨⟨?_, ?_⟩, ?_, ?_⟩
  · intro hsum
    by_contra hne
    rcases hn : pnls.filter (fun p => p < 0) with _ | ⟨a, t⟩
    · exact hne hn
    · have ha : a < 0 := hall a (by simp [hn])
      have ht : t.sum ≤ 0 := hnonpos t (fun x hx => hall x (by simp [hn, hx]))
      rw [hn] at hsum
      simp only [List.sum_cons] at hsum
      linarith
  · intro hnil
    simp [hnil]
  · intro h
    simp [profit_factor, h]
  · intro h
    simp [profit_factor, h]

/-- C7 witness: a run with no losing trade yields 0; a run with losses yields
the rounded ratio. -/
theorem C7_amended_witness :
    profit_factor [5] = 0 ∧ profit_factor [2, -1] = pyRound2 (2 / |(-1 : ℚ)|) := by
  constructor
  · exact (C7_amended [5]).2.1 (by simp)
  · have h := (C7_amended [2, -1]).2.2 (by norm_num)
    simpa using h

/-- C8: for every ticker snapshot, the ranked universe under UPTREND has at most
5 entries, all long; under DOWNTREND at most 5, all short; under SIDEWAYS it is
the concatenation of at most 5 long entries followed by at most 5 short entries
(hence at most 10 total); the candidate windows are produced by list slicing, so
sides with fewer than 10 instruments are clipped, never an error. -/
theorem C8_universe_shape (tickers : List Ticker) :
    ((scan_universe .UPTREND tickers).length ≤ 5 ∧
      (scan_universe .UPTREND tickers).all (fun e => e.direction == "long") = true) ∧
    ((scan_universe .DOWNTREND tickers).length ≤ 5 ∧
      (scan_universe .DOWNTREND tickers).all (fun e => e.direction == "short") = true) ∧
    (∃ ls ss, scan_universe .SIDEWAYS tickers = ls ++ ss ∧
      ls.length ≤ 5 ∧ ss.length ≤ 5 ∧
      ls.all (fun e => e.direction == "long") = true ∧
      ss.all (fun e => e.direction == "short") = true ∧
      (scan_universe .SIDEWAYS tickers).length ≤ 10) := by
  refine ⟨⟨?_, ?_⟩, ⟨?_, ?_⟩, ?_⟩
  · simp only [scan_universe, List.length_map]
    have := List.length_take_le 5 (calculate_weighted_score
      ((sortByKeyDesc (fun t => t.change_pct) (tickers.filter (fun t => t.symbol.endsWith "/USDT"))).take 10)
      ((sortByKeyDesc (fun t => t.quote_volume) (tickers.filter (fun t => t.symbol.endsWith "/USDT"))).take 10)
      (6/10) (4/10))
    omega
  · simp [scan_universe, List.all_map, Function.comp]
    intro x hx
    rcases List.mem_map.mp (List.take_subset _ _ hx) with ⟨y, _, rfl⟩
    rfl
  · simp only [scan_universe, List.length_map]
    have := List.length_take_le 5 (calculate_weighted_score
      ((sortByKeyAsc (fun t => t.change_pct) (tickers.filter (fun t => t.symbol.endsWith "/USDT"))).take 10)
      ((sortByKeyDesc (fun t => t.quote_volume) (tickers.filter (fun t => t.symbol.endsWith "/USDT"))).take 10)
      (6/10) (4/10))
    omega
  · simp [scan_universe, List.all_map, Function.comp]
    intro x hx
    rcases List.mem_map.mp (List.take_subset _ _ hx) with ⟨y, _, rfl⟩
    rfl
  · simp only [scan_universe]
    refine ⟨_, _, rfl, ?_, ?_, ?_, ?_, ?_⟩
    · simp only [List.length_map]
      exact List.length_take_le 5 _
    · simp only [List.length_map]
      exact List.length_take_le 5 _
    · simp [List.all_map, Function.comp]
      intro x hx
      rcases List.mem_map.mp (List.take_subset _ _ hx) with ⟨y, _, rfl⟩
      rfl
    · simp [List.all_map, Function.comp]
      intro x hx
      rcases List.mem_map.mp (List.take_subset _ _ hx) with ⟨y, _, rfl⟩
      rfl
    · rw [List.length_append]
      simp only [List.length_map]
      have h1 := List.length_take_le 5 (calculate_weighted_score
        ((sortByKeyDesc (fun t => t.change_pct) (tickers.filter (fun t => t.symbol.endsWith "/USDT"))).take 10)
        ((sortByKeyDesc (fun t => t.quote_volume) (tickers.filter (fun t => t.symbol.endsWith "/USDT"))).take 10)
        (6/10) (4/10))
      have h2 := List.length_take_le 5 (calculate_weighted_score
        (lastN 10 (sortByKeyDesc (fun t => t.change_pct) (tickers.filter (fun t => t.symbol.endsWith "/USDT"))))
        ((sortByKeyDesc (fun t => t.quote_volume) (tickers.filter (fun t => t.symbol.endsWith "/USDT"))).take 10)
        (6/10) (4/10))
      omega


/-- The exit reason of `evalExit`, written as the if/elif chain of
backtest.py:219-228. -/
theorem evalExit_snd (strat : Strategy) (pos : Position) (candle : Candle) :
    (evalExit strat pos candle).2 =
      (if candle.close ≤ (strat.set_trailing_stop pos.entry_price).stop_loss then some "손절"
       else if candle.close ≥ (strat.set_trailing_stop pos.entry_price).max_profit_target then
         some "최대 익절 (200%)"
       else if candle.close ≤ (max pos.highest_price candle.close) * (985 / 1000) ∧
           max pos.highest_price candle.close > pos.entry_price * (102 / 100) then
         some "트레일링 스탑"
       else none) := rfl

/-- C1: while a position is OPEN, exactly one closing condition is evaluated per
candle in the fixed priority order — stop loss first, then the max-profit
target, then the armed trailing stop (close ≤ 0.985 × highest and
highest > entry × 1.02, where highest already includes this candle's close); the
first match wins and determines the recorded reason, and the position remains
OPEN exactly when no condition matches. -/
theorem C1_exit_priority (strat : Strategy) (pos : Position) (candle : Candle) :
    ((evalExit strat pos candle).1 = max pos.highest_price candle.close) ∧
    ((evalExit strat pos candle).2 = some "손절" ↔
      candle.close ≤ (strat.set_trailing_stop pos.entry_price).stop_loss) ∧
    ((evalExit strat pos candle).2 = some "최대 익절 (200%)" ↔
      ¬(candle.close ≤ (strat.set_trailing_stop pos.entry_price).stop_loss) ∧
        candle.close ≥ (strat.set_trailing_stop pos.entry_price).max_profit_target) ∧
    ((evalExit strat pos candle).2 = some "트레일링 스탑" ↔
      ¬(candle.close ≤ (strat.set_trailing_stop pos.entry_price).stop_loss) ∧
        ¬(candle.close ≥ (strat.set_trailing_stop pos.entry_price).max_profit_target) ∧
        (candle.close ≤ (max pos.highest_price candle.close) * (985 / 1000) ∧
          max pos.highest_price candle.close > pos.entry_price * (102 / 100))) ∧
    ((evalExit strat pos candle).2 = none ↔
      ¬(candle.close ≤ (strat.set_trailing_stop pos.entry_price).stop_loss) ∧
        ¬(candle.close ≥ (strat.set_trailing_stop pos.entry_price).max_profit_target) ∧
        ¬(candle.close ≤ (max pos.highest_price candle.close) * (985 / 1000) ∧
          max pos.highest_price candle.close > pos.entry_price * (102 / 100))) ∧
    (∀ (curr : List Candle) (st : EngineState), st.position = some pos →
      ((processCandle strat curr candle st).position = none ↔
        (evalExit strat pos candle).2 ≠ none)) := by
  refine ⟨rfl, ?_, ?_, ?_, ?_, ?_⟩
  · by_cases h1 : candle.close ≤ (strat.set_trailing_stop pos.entry_price).stop_loss
    · exact iff_of_true (by rw [evalExit_snd, if_pos h1]) h1
    · refine iff_of_false ?_ h1
      rw [evalExit_snd, if_neg h1]
      split_ifs <;> simp
  · by_cases h1 : candle.close ≤ (strat.set_trailing_stop pos.entry_price).stop_loss
    · refine iff_of_false ?_ (fun hc => hc.1 h1)
      rw [evalExit_snd, if_pos h1]
      simp
    · by_cases h2 : candle.close ≥ (strat.set_trailing_stop pos.entry_price).max_profit_target
      · exact iff_of_true (by rw [evalExit_snd, if_neg h1, if_pos h2]) ⟨h1, h2⟩
      · refine iff_of_false ?_ (fun hc => h2 hc.2)
        rw [evalExit_snd, if_neg h1, if_neg h2]
        split_ifs <;> simp
  · by_cases h1 : candle.close ≤ (strat.set_trailing_stop pos.entry_price).stop_loss
    · refine iff_of_false ?_ (fun hc => hc.1 h1)
      rw [evalExit_snd, if_pos h1]
      simp
    · by_cases h2 : candle.close ≥ (strat.set_trailing_stop pos.entry_price).max_profit_target
      · refine iff_of_false ?_ (fun hc => hc.2.1 h2)
        rw [evalExit_snd, if_neg h1, if_pos h2]
        simp
      · by_cases h3 : candle.close ≤ (max pos.highest_price candle.close) * (985 / 1000) ∧
            max pos.highest_price candle.close > pos.entry_price * (102 / 100)
        · exact iff_of_true (by rw [evalExit_snd, if_neg h1, if_neg h2, if_pos h3]) ⟨h1, h2, h3⟩
        · refine iff_of_false ?_ (fun hc => h3 hc.2.2)
          rw [evalExit_snd, if_neg h1, if_neg h2, if_neg h3]
          simp
  · by_cases h1 : candle.close ≤ (strat.set_trailing_stop pos.entry_price).stop_loss
    · refine iff_of_false ?_ (fun hc => hc.1 h1)
      rw [evalExit_snd, if_pos h1]
      simp
    · by_cases h2 : candle.close ≥ (strat.set_trailing_stop pos.entry_price).max_profit_target
      · refine iff_of_false ?_ (fun hc => hc.2.1 h2)
        rw [evalExit_snd, if_neg h1, if_pos h2]
        simp
      · by_cases h3 : candle.close ≤ (max pos.highest_price candle.close) * (985 / 1000) ∧
            max pos.highest_price candle.close > pos.entry_price * (102 / 100)
        · refine iff_of_false ?_ (fun hc => hc.2.2 h3)
          rw [evalExit_snd, if_neg h1, if_neg h2, if_pos h3]
          simp
        · exact iff_of_true (by rw [evalExit_snd, if_neg h1, if_neg h2, if_neg h3]) ⟨h1, h2, h3⟩
  · intro curr st hst
    rcases hr : (evalExit strat pos candle).2 with _ | r
    · simp [processCandle, hst, hr]
    · simp [processCandle, hst, hr, closePosition]

/-- C1 witness: entry 100, highest 150, close 147 under the Bollinger stop plan
triggers the trailing stop (147 ≤ 147.75, 150 > 102, no earlier match). -/
theorem C1_exit_priority_witness :
    (evalExit (BollingerBandBreakoutStrategy.strategy (fun _ => 0))
        ⟨80, 100, 1000, "LONG", 150⟩ (mkCandle 81 147)).2 = some "트레일링 스탑" := by
  refine (C1_exit_priority (BollingerBandBreakoutStrategy.strategy (fun _ => 0))
      ⟨80, 100, 1000, "LONG", 150⟩ (mkCandle 81 147)).2.2.2.1.mpr ?_
  refine ⟨?_, ?_, ?_, ?_⟩ <;>
    norm_num [BollingerBandBreakoutStrategy.strategy,
      BollingerBandBreakoutStrategy.set_trailing_stop, mkCandle]

/-- `updateLast` preserves the length of the ledger. -/
theorem updateLast_length {α : Type} (ts : List α) (f : α → α) :
    (updateLast ts f).length = ts.length := by
  rcases h : ts.getLast? with _ | t
  · simp [updateLast, h]
  · have hne : ts ≠ [] := by
      intro he
      subst he
      simp at h
    have hpos : 1 ≤ ts.length := List.length_pos.mpr hne
    simp [updateLast, h, List.length_dropLast]
    omega

/-- A member of `updateLast ts f` is a member of `ts` or the image of its last
entry. -/
theorem mem_updateLast {α : Type} {x : α} (ts : List α) (f : α → α)
    (hx : x ∈ updateLast ts f) :
    x ∈ ts ∨ ∃ t, ts.getLast? = some t ∧ x = f t := by
  rcases h : ts.getLast? with _ | t
  · rw [updateLast, h] at hx
    exact Or.inl hx
  · rw [updateLast, h] at hx
    rcases List.mem_append.mp hx with hd | hl
    · exact Or.inl (List.dropLast_subset ts hd)
    · exact Or.inr ⟨t, rfl, by simpa using hl⟩

/-- `updateLast` maps the last entry through `f`. -/
theorem updateLast_getLast {α : Type} (ts : List α) (f : α → α) (t : α)
    (h : ts.getLast? = some t) :
    (updateLast ts f).getLast? = some (f t) := by
  rw [updateLast, h]
  exact List.getLast?_concat _

/-- The in-loop exit chain never produces the forced end-of-data reason. -/
theorem evalExit_reason_ne_eod (strat : Strategy) (pos : Position) (candle : Candle)
    (r : String) (h : (evalExit strat pos candle).2 = some r) :
    r ≠ "백테스트 종료" := by
  rw [evalExit_snd] at h
  split_ifs at h <;> simp_all <;> subst h <;> decide

/-- One engine step preserves the loop invariant, consuming the head of the
unprocessed candles. -/
theorem processCandle_inv (strat : Strategy) (curr : List Candle) (c : Candle)
    (cs : List Candle) (st : EngineState)
    (hord : ∀ x ∈ cs, c.ts < x.ts)
    (hinv : EngineInv st (c :: cs)) :
    EngineInv (processCandle strat curr c st) cs := by
  obtain ⟨htr, hpos⟩ := hinv
  rcases hp : st.position with _ | pos
  · rcases hsig : strat.check_entry_signal curr with _ | _
    · constructor
      · intro t ht
        apply htr
        simpa [processCandle, hp, hsig] using ht
      · intro p hpeq
        simp [processCandle, hp, hsig] at hpeq
    · have hnt : (processCandle strat curr c st).trades =
          st.trades ++ [({ date := c.ts, price := strat.get_entry_price curr,
                           size := st.capital * strat.position_size_fraction,
                           direction := "LONG", pnl := 0,
                           stop_loss := strat.get_entry_price curr * (97 / 100),
                           max_profit_target := strat.get_entry_price curr * 3,
                           close_date := none, close_price := none, close_reason := none,
                           highest_price_reached := none,
                           max_profit_percentage := none } : Trade)] := by
        simp [processCandle, hp, hsig, openPosition]
      have hpq : (processCandle strat curr c st).position =
          some ({ entry_date := c.ts, entry_price := strat.get_entry_price curr,
                  size := st.capital * strat.position_size_fraction, direction := "LONG",
                  highest_price := strat.get_entry_price curr } : Position) := by
        simp [processCandle, hp, hsig, openPosition]
      constructor
      · intro t ht
        rw [hnt] at ht
        rcases List.mem_append.mp ht with hm | hm
        · exact htr t hm
        · intro r hr
          rw [List.mem_singleton.mp hm] at hr
          simp at hr
      · intro p hpeq
        rw [hpq, Option.some_inj] at hpeq
        subst hpeq
        refine ⟨fun x hx => hord x hx, ?_⟩
        rw [hnt]
        exact ⟨_, List.getLast?_concat _, rfl, rfl, rfl, rfl, rfl⟩
  · rcases hr : (evalExit strat pos c).2 with _ | r
    · have htrades : (processCandle strat curr c st).trades = st.trades := by
        simp [processCandle, hp, hr]
      constructor
      · intro t ht
        rw [htrades] at ht
        exact htr t ht
      · intro p hpeq
        simp only [processCandle, hp, hr] at hpeq
        rw [Option.some_inj] at hpeq
        subst hpeq
        obtain ⟨hdates, t₁, hlast, hprops⟩ := hpos pos hp
        refine ⟨fun x hx => hdates x (List.mem_cons_of_mem c hx), ?_⟩
        rw [htrades]
        exact ⟨t₁, hlast, hprops⟩
    · obtain ⟨hdates, t₁, hlast, hcr, hdate, hprice, hsize, hdir⟩ := hpos pos hp
      constructor
      · intro t ht
        have htrades : (processCandle strat curr c st).trades =
            updateLast st.trades (fun t =>
              { t with
                pnl := (c.close - pos.entry_price) * pos.size / pos.entry_price
                close_date := some c.ts, close_price := some c.close
                close_reason := some r
                highest_price_reached := some (evalExit strat pos c).1
                max_profit_percentage :=
                  some (((evalExit strat pos c).1 - pos.entry_price) / pos.entry_price * 100) }) := by
          simp [processCandle, hp, hr, closePosition]
        rw [htrades] at ht
        rcases mem_updateLast _ _ ht with hm | ⟨t₀, hlast₀, rfl⟩
        · exact htr t hm
        · rw [hlast] at hlast₀
          rw [Option.some_inj] at hlast₀
          subst hlast₀
          intro r' hr'
          simp only [Option.some_inj] at hr'
          subst hr'
          refine ⟨by simpa using hdir, ⟨c.close, by simp, ?_⟩, fun _ => ⟨c.ts, by simp, ?_⟩⟩
          · simp [hprice, hsize]
          · simp only [hdate]
            exact hdates c (List.mem_cons_self c cs)
      · intro p hpeq
        simp [processCandle, hp, hr, closePosition] at hpeq

/-- The backtest loop preserves the invariant down to an empty remainder. -/
theorem runAux_inv (strat : Strategy) (rest : List Candle) :
    ∀ (processed : List Candle) (st : EngineState),
      List.Pairwise (fun a b => a.ts < b.ts) rest → EngineInv st rest →
      EngineInv (runAux strat processed rest st) [] := by
  induction rest with
  | nil =>
    intro processed st _ hinv
    exact hinv
  | cons c cs ih =>
    intro processed st hp hinv
    rw [runAux]
    have hpc := List.pairwise_cons.mp hp
    exact ih (processed ++ [c]) _ hpc.2 (processCandle_inv strat (processed ++ [c]) c cs st hpc.1 hinv)

/-- After the forced end-of-data close, every closed trade satisfies the
per-trade closing invariant. -/
theorem finalClose_trades_ok (data : List Candle) (st : EngineState)
    (hinv : EngineInv st []) :
    ∀ t ∈ (finalClose data st).trades, ClosedTradeOK t := by
  obtain ⟨htr, hpos⟩ := hinv
  rcases hp : st.position with _ | pos
  · intro t ht
    rw [finalClose, hp] at ht
    exact htr t ht
  · intro t ht
    obtain ⟨-, t₁, hlast, hcr, hdate, hprice, hsize, hdir⟩ := hpos pos hp
    have htrades : (finalClose data st).trades =
        updateLast st.trades (fun t =>
          { t with
            pnl := ((data.getLastD default).close - pos.entry_price) * pos.size /
              pos.entry_price
            close_date := some (data.getLastD default).ts
            close_price := some (data.getLastD default).close
            close_reason := some "백테스트 종료"
            highest_price_reached := some pos.highest_price
            max_profit_percentage :=
              some ((pos.highest_price - pos.entry_price) / pos.entry_price * 100) }) := by
      simp [finalClose, hp]
    rw [htrades] at ht
    rcases mem_updateLast _ _ ht with hm | ⟨t₀, hlast₀, rfl⟩
    · exact htr t hm
    · rw [hlast, Option.some_inj] at hlast₀
      subst hlast₀
      intro r' hr'
      simp only [Option.some_inj] at hr'
      subst hr'
      refine ⟨by simpa using hdir, ⟨(data.getLastD default).close, by simp, ?_⟩, ?_⟩
      · simp [hprice, hsize]
      · intro hne
        exact absurd rfl hne

/-- Every trade of a completed run with strictly increasing timestamps
satisfies the per-trade closing invariant. -/
theorem run_trades_ok (strat : Strategy) (cap : ℚ) (data : List Candle)
    (h : List.Pairwise (fun a b => a.ts < b.ts) data) :
    ∀ t ∈ (run_bollinger_breakout_backtest strat cap data).trades, ClosedTradeOK t := by
  apply finalClose_trades_ok
  apply runAux_inv
  · exact h.sublist (List.drop_sublist _ _)
  · constructor
    · intro t ht
      simp at ht
    · intro p hpeq
      simp at hpeq

/-- `demoData` splits at index 80 into its flat prefix and the two live candles. -/
theorem demoData_take_drop :
    demoData.take 80 = (List.range 80).map (fun i => mkCandle i 100) ∧
      demoData.drop 80 = [mkCandle 80 100, mkCandle 81 50] := by
  have hA : ((List.range 80).map (fun i => mkCandle i 100)).length = 80 := by simp
  constructor
  · rw [demoData, List.take_left' hA]
  · rw [demoData, List.drop_left' hA]

/-- The first live candle of the demo run opens a LONG position of size 300 at
price 100. -/
theorem demoRun_step1 :
    processCandle alwaysEnterStrategy
        (((List.range 80).map (fun i => mkCandle i 100)) ++ [mkCandle 80 100]) (mkCandle 80 100)
        { capital := 1000, position := none, trades := [], equity_curve := [] } =
      { capital := 1000,
        position := some ⟨80, 100, 300, "LONG", 100⟩,
        trades := [{ date := 80, price := 100, size := 300, direction := "LONG", pnl := 0,
                     stop_loss := 97, max_profit_target := 300, close_date := none,
                     close_price := none, close_reason := none,
                     highest_price_reached := none, max_profit_percentage := none }],
        equity_curve := [(80, 1000)] } := by
  norm_num [processCandle, openPosition, alwaysEnterStrategy, mkCandle, List.getLastD_concat]

/-- The second live candle of the demo run stops the position out at 50 for a
pnl of −150. -/
theorem demoRun_step2 :
    processCandle alwaysEnterStrategy
        ((((List.range 80).map (fun i => mkCandle i 100)) ++ [mkCandle 80 100]) ++ [mkCandle 81 50])
        (mkCandle 81 50)
        { capital := 1000,
          position := some ⟨80, 100, 300, "LONG", 100⟩,
          trades := [{ date := 80, price := 100, size := 300, direction := "LONG", pnl := 0,
                       stop_loss := 97, max_profit_target := 300, close_date := none,
                       close_price := none, close_reason := none,
                       highest_price_reached := none, max_profit_percentage := none }],
          equity_curve := [(80, 1000)] } =
      { capital := 850,
        position := none,
        trades := [{ date := 80, price := 100, size := 300, direction := "LONG", pnl := -150,
                     stop_loss := 97, max_profit_target := 300, close_date := some 81,
                     close_price := some 50, close_reason := some "손절",
                     highest_price_reached := some 100, max_profit_percentage := some 0 }],
        equity_curve := [(80, 1000), (81, 850)] } := by
  norm_num [processCandle, closePosition, evalExit, updateLast, alwaysEnterStrategy,
    BollingerBandBreakoutStrategy.set_trailing_stop, mkCandle]

/-- The demo run produces exactly one trade, stopped out one candle after
entry. -/
theorem demoRun_trades_eval :
    (run_bollinger_breakout_backtest alwaysEnterStrategy 1000 demoData).trades =
      [{ date := 80, price := 100, size := 300, direction := "LONG", pnl := -150,
         stop_loss := 97, max_profit_target := 300, close_date := some 81,
         close_price := some 50, close_reason := some "손절",
         highest_price_reached := some 100, max_profit_percentage := some 0 }] := by
  rw [run_bollinger_breakout_backtest, demoData_take_drop.1, demoData_take_drop.2]
  simp only [runAux]
  rw [demoRun_step1, demoRun_step2]
  rw [finalClose]

/-- `demoData` has strictly increasing timestamps. -/
theorem demoData_pairwise :
    List.Pairwise (fun a b => a.ts < b.ts) demoData := by
  rw [demoData]
  apply List.pairwise_append.mpr
  refine ⟨?_, ?_, ?_⟩
  · rw [List.pairwise_map]
    have := List.pairwise_lt_range 80
    exact this.imp (fun h => by simpa [mkCandle] using h)
  · simp [mkCandle]
  · intro a ha b hb
    rcases List.mem_map.mp ha with ⟨i, hi, rfl⟩
    have hi80 : i < 80 := List.mem_range.mp hi
    simp only [List.mem_cons, List.mem_singleton, List.not_mem_nil, or_false] at hb
    rcases hb with rfl | rfl
    · simpa [mkCandle] using hi80
    · simp only [mkCandle]
      omega

/-- C2: every realized trade of a run is a LONG whose pnl is
`(closePrice − entryPrice) × size / entryPrice` (size a capital notional);
`calculate_pnl` is sign-inverted for a short position; and in the scenario
entry 100 / size 1000 / highest 150 / close 147 the trailing stop fires with a
realized pnl of exactly 470. -/
theorem C2_pnl_formula :
    (∀ entry_price current_price position_size : ℚ,
      calculate_pnl entry_price current_price position_size "short" =
        -(calculate_pnl entry_price current_price position_size "long")) ∧
    (∀ (strat : Strategy) (cap : ℚ) (data : List Candle),
      List.Pairwise (fun a b => a.ts < b.ts) data →
      ∀ t ∈ (run_bollinger_breakout_backtest strat cap data).trades,
        ∀ r, t.close_reason = some r →
          t.direction = "LONG" ∧
          ∃ cp, t.close_price = some cp ∧ t.pnl = (cp - t.price) * t.size / t.price) ∧
    ((processCandle (BollingerBandBreakoutStrategy.strategy (fun _ => 0)) [] (mkCandle 81 147)
        { capital := 1000, position := some ⟨80, 100, 1000, "LONG", 150⟩,
          trades := [{ date := 80, price := 100, size := 1000, direction := "LONG", pnl := 0,
                       stop_loss := 97, max_profit_target := 300, close_date := none,
                       close_price := none, close_reason := none,
                       highest_price_reached := none, max_profit_percentage := none }],
          equity_curve := [] }).trades =
      [{ date := 80, price := 100, size := 1000, direction := "LONG", pnl := 470,
         stop_loss := 97, max_profit_target := 300, close_date := some 81,
         close_price := some 147, close_reason := some "트레일링 스탑",
         highest_price_reached := some 150, max_profit_percentage := some 50 }]) := by
  refine ⟨?_, ?_, ?_⟩
  · intro e c s
    rw [calculate_pnl, calculate_pnl, if_neg (by decide), if_pos rfl]
    ring
  · intro strat cap data hpw t ht r hr
    have h := run_trades_ok strat cap data hpw t ht r hr
    exact ⟨h.1, h.2.1⟩
  · norm_num [processCandle, closePosition, evalExit, updateLast,
      BollingerBandBreakoutStrategy.strategy, BollingerBandBreakoutStrategy.set_trailing_stop,
      mkCandle]

/-- C2 witness: the pnl formula instantiated on the concrete demo run. -/
theorem C2_pnl_formula_witness :
    ∃ t ∈ (run_bollinger_breakout_backtest alwaysEnterStrategy 1000 demoData).trades,
      t.close_reason = some "손절" ∧ t.direction = "LONG" ∧
        ∃ cp, t.close_price = some cp ∧ t.pnl = (cp - t.price) * t.size / t.price := by
  have hmem : ({ date := 80, price := 100, size := 300, direction := "LONG", pnl := -150,
                 stop_loss := 97, max_profit_target := 300, close_date := some 81,
                 close_price := some 50, close_reason := some "손절",
                 highest_price_reached := some 100,
                 max_profit_percentage := some 0 } : Trade) ∈
      (run_bollinger_breakout_backtest alwaysEnterStrategy 1000 demoData).trades := by
    rw [demoRun_trades_eval]
    exact List.mem_singleton_self _
  have h := C2_pnl_formula.2.1 alwaysEnterStrategy 1000 demoData demoData_pairwise _ hmem
    "손절" rfl
  exact ⟨_, hmem, rfl, h.1, h.2⟩

/-- `evalExit` ignores the entry-signal component of the strategy. -/
theorem evalExit_update_signal (strat : Strategy) (f : List Candle → Bool)
    (pos : Position) (c : Candle) :
    evalExit { strat with check_entry_signal := f } pos c = evalExit strat pos c := rfl

/-- C9: while a position is OPEN the engine step is independent of the
entry-signal function (it is never consulted), no new trade is appended and any
surviving position is the same one with an updated high (so at most one position
ever exists); if data ends while OPEN, the forced close empties the position and
finalizes the last trade with reason end-of-data at the final candle close. -/
theorem C9_single_position :
    (∀ (strat : Strategy) (f : List Candle → Bool) (curr : List Candle) (c : Candle)
        (st : EngineState) (pos : Position), st.position = some pos →
      processCandle { strat with check_entry_signal := f } curr c st =
        processCandle strat curr c st) ∧
    (∀ (strat : Strategy) (curr : List Candle) (c : Candle) (st : EngineState) (pos : Position),
      st.position = some pos →
      (processCandle strat curr c st).trades.length = st.trades.length ∧
      ∀ q, (processCandle strat curr c st).position = some q →
        q = { pos with highest_price := max pos.highest_price c.close }) ∧
    (∀ (data : List Candle) (st : EngineState) (pos : Position), st.position = some pos →
      (finalClose data st).position = none ∧
      ∀ t₀, st.trades.getLast? = some t₀ →
        ∃ t, (finalClose data st).trades.getLast? = some t ∧
          t.close_reason = some "백테스트 종료" ∧
          t.close_price = some (data.getLastD default).close ∧
          t.close_date = some (data.getLastD default).ts) := by
  refine ⟨?_, ?_, ?_⟩
  · intro strat f curr c st pos hst
    simp only [processCandle, hst, evalExit_update_signal]
  · intro strat curr c st pos hst
    rcases hr : (evalExit strat pos c).2 with _ | r
    · constructor
      · simp [processCandle, hst, hr]
      · intro q hq
        simp only [processCandle, hst, hr] at hq
        rw [Option.some_inj] at hq
        exact hq.symm
    · constructor
      · have htr : (processCandle strat curr c st).trades =
            updateLast st.trades (fun t =>
              { t with
                pnl := (c.close - pos.entry_price) * pos.size / pos.entry_price
                close_date := some c.ts, close_price := some c.close
                close_reason := some r
                highest_price_reached := some (evalExit strat pos c).1
                max_profit_percentage :=
                  some (((evalExit strat pos c).1 - pos.entry_price) / pos.entry_price * 100) }) := by
          simp [processCandle, hst, hr, closePosition]
        rw [htr, updateLast_length]
      · intro q hq
        simp [processCandle, hst, hr, closePosition] at hq
  · intro data st pos hst
    refine ⟨by simp [finalClose, hst], ?_⟩
    intro t₀ h₀
    have htr : (finalClose data st).trades =
        updateLast st.trades (fun t =>
          { t with
            pnl := ((data.getLastD default).close - pos.entry_price) * pos.size /
              pos.entry_price
            close_date := some (data.getLastD default).ts
            close_price := some (data.getLastD default).close
            close_reason := some "백테스트 종료"
            highest_price_reached := some pos.highest_price
            max_profit_percentage :=
              some ((pos.highest_price - pos.entry_price) / pos.entry_price * 100) }) := by
      simp [finalClose, hst]
    rw [htr]
    exact ⟨_, updateLast_getLast _ _ t₀ h₀, rfl, rfl, rfl⟩

/-- C9 witness: the step independence and forced close evaluated on a concrete
open state. -/
theorem C9_single_position_witness :
    (processCandle { alwaysEnterStrategy with check_entry_signal := fun _ => false } []
        (mkCandle 81 147)
        { capital := 1000, position := some ⟨80, 100, 1000, "LONG", 150⟩,
          trades := [{ date := 80, price := 100, size := 1000, direction := "LONG", pnl := 0,
                       stop_loss := 97, max_profit_target := 300, close_date := none,
                       close_price := none, close_reason := none,
                       highest_price_reached := none, max_profit_percentage := none }],
          equity_curve := [] } =
      processCandle alwaysEnterStrategy [] (mkCandle 81 147)
        { capital := 1000, position := some ⟨80, 100, 1000, "LONG", 150⟩,
          trades := [{ date := 80, price := 100, size := 1000, direction := "LONG", pnl := 0,
                       stop_loss := 97, max_profit_target := 300, close_date := none,
                       close_price := none, close_reason := none,
                       highest_price_reached := none, max_profit_percentage := none }],
          equity_curve := [] }) ∧
    ∃ t, (finalClose [mkCandle 81 147]
        { capital := 1000, position := some ⟨80, 100, 1000, "LONG", 150⟩,
          trades := [{ date := 80, price := 100, size := 1000, direction := "LONG", pnl := 0,
                       stop_loss := 97, max_profit_target := 300, close_date := none,
                       close_price := none, close_reason := none,
                       highest_price_reached := none, max_profit_percentage := none }],
          equity_curve := [] }).trades.getLast? = some t ∧
      t.close_reason = some "백테스트 종료" ∧ t.close_price = some 147 ∧
      t.close_date = some 81 := by
  constructor
  · exact C9_single_position.1 alwaysEnterStrategy (fun _ => false) [] (mkCandle 81 147) _
      ⟨80, 100, 1000, "LONG", 150⟩ rfl
  · have h := (C9_single_position.2.2 [mkCandle 81 147]
      { capital := 1000, position := some ⟨80, 100, 1000, "LONG", 150⟩,
        trades := [{ date := 80, price := 100, size := 1000, direction := "LONG", pnl := 0,
                     stop_loss := 97, max_profit_target := 300, close_date := none,
                     close_price := none, close_reason := none,
                     highest_price_reached := none, max_profit_percentage := none }],
        equity_curve := [] } ⟨80, 100, 1000, "LONG", 150⟩ rfl).2 _ rfl
    obtain ⟨t, hlast, hcr, hcp, hcd⟩ := h
    exact ⟨t, hlast, hcr, by simpa [mkCandle] using hcp, by simpa [mkCandle] using hcd⟩

/-- C10: an entry step appends a still-open trade (no exit is evaluated on the
entry candle) and a position can only be created from the FLAT state; for
strictly increasing timestamps, every trade closed by the in-loop exit chain has
a close timestamp strictly after its entry timestamp; only the forced
end-of-data close can coincide with the entry candle, and then the close
timestamp equals the entry timestamp. -/
theorem C10_no_exit_on_entry_candle :
    (∀ (strat : Strategy) (curr : List Candle) (c : Candle) (st : EngineState),
      st.position = none → strat.check_entry_signal curr = true →
      ∃ nt, (processCandle strat curr c st).trades = st.trades ++ [nt] ∧
        nt.close_reason = none ∧ nt.date = c.ts ∧
        (processCandle strat curr c st).position =
          some ⟨c.ts, strat.get_entry_price curr,
            st.capital * strat.position_size_fraction, "LONG", strat.get_entry_price curr⟩) ∧
    (∀ (strat : Strategy) (cap : ℚ) (data : List Candle),
      List.Pairwise (fun a b => a.ts < b.ts) data →
      ∀ t ∈ (run_bollinger_breakout_backtest strat cap data).trades,
        ∀ r, t.close_reason = some r → r ≠ "백테스트 종료" →
          ∃ d, t.close_date = some d ∧ t.date < d) ∧
    (∀ (data : List Candle) (st : EngineState) (pos : Position) (t₀ : Trade),
      st.position = some pos → st.trades.getLast? = some t₀ → t₀.date = pos.entry_date →
      pos.entry_date = (data.getLastD default).ts →
      ∃ t, (finalClose data st).trades.getLast? = some t ∧
        t.close_reason = some "백테스트 종료" ∧ t.close_date = some t.date) := by
  refine ⟨?_, ?_, ?_⟩
  · intro strat curr c st hp hsig
    refine ⟨{ date := c.ts, price := strat.get_entry_price curr,
              size := st.capital * strat.position_size_fraction, direction := "LONG",
              pnl := 0, stop_loss := strat.get_entry_price curr * (97 / 100),
              max_profit_target := strat.get_entry_price curr * 3,
              close_date := none, close_price := none, close_reason := none,
              highest_price_reached := none, max_profit_percentage := none },
            ?_, rfl, rfl, ?_⟩
    · simp [processCandle, hp, hsig, openPosition]
    · simp [processCandle, hp, hsig, openPosition]
  · intro strat cap data hpw t ht r hr hne
    exact ((run_trades_ok strat cap data hpw t ht) r hr).2.2 hne
  · intro data st pos t₀ hst hlast hdate hent
    have htr : (finalClose data st).trades =
        updateLast st.trades (fun t =>
          { t with
            pnl := ((data.getLastD default).close - pos.entry_price) * pos.size /
              pos.entry_price
            close_date := some (data.getLastD default).ts
            close_price := some (data.getLastD default).close
            close_reason := some "백테스트 종료"
            highest_price_reached := some pos.highest_price
            max_profit_percentage :=
              some ((pos.highest_price - pos.entry_price) / pos.entry_price * 100) }) := by
      simp [finalClose, hst]
    rw [htr]
    refine ⟨_, updateLast_getLast _ _ t₀ hlast, rfl, ?_⟩
    show some (data.getLastD default).ts = some t₀.date
    rw [hdate, hent]

/-- C10 witness: on the demo run the stop-loss close lands strictly after the
entry candle. -/
theorem C10_no_exit_on_entry_candle_witness :
    ∃ t ∈ (run_bollinger_breakout_backtest alwaysEnterStrategy 1000 demoData).trades,
      t.close_reason = some "손절" ∧ ∃ d, t.close_date = some d ∧ t.date < d := by
  have hmem : ({ date := 80, price := 100, size := 300, direction := "LONG", pnl := -150,
                 stop_loss := 97, max_profit_target := 300, close_date := some 81,
                 close_price := some 50, close_reason := some "손절",
                 highest_price_reached := some 100,
                 max_profit_percentage := some 0 } : Trade) ∈
      (run_bollinger_breakout_backtest alwaysEnterStrategy 1000 demoData).trades := by
    rw [demoRun_trades_eval]
    exact List.mem_singleton_self _
  have h := C10_no_exit_on_entry_candle.2.1 alwaysEnterStrategy 1000 demoData
    demoData_pairwise _ hmem "손절" rfl (by decide)
  exact ⟨_, hmem, rfl, h⟩
